import Mathlib

/-
Verification of the session-aware message bus of the nanobot repository
(src/nanobot/bus/queue.py, class MessageBus) against its specification.

Embedding notes:
- The bus is cooperative-async Python; every public operation mutates the
  bus only inside one lock-guarded critical section (or a single queue
  operation), so each operation is modelled as an atomic transformer of an
  explicit `BusState`.
- `asyncio.Queue` is modelled as a list (head = front of the FIFO); a
  blocking `get` on an empty queue is modelled as `none` (the caller would
  suspend, so no value is returned in that configuration).
- Python dicts are modelled as association lists without duplicate keys;
  `d[k] = v` / `{**d, k: v}` keeps the original key position when the key
  exists and appends at the end otherwise, `d.pop(k, dflt)` removes the
  entry, `d.get(k, dflt)` is first-match lookup.
- `datetime` timestamps are modelled as their ISO-format strings, so
  `t.isoformat()` is the identity; this is faithful because a datetime and
  its ISO string determine each other.
- Exceptions raised by outbound delivery callbacks are modelled by a
  Boolean outcome per invocation (`true` = returned, `false` = raised);
  the dispatcher catches them, so the outcome never alters control flow.
-/

namespace Nanobot

/-- Values stored in a string-keyed metadata map: strings, lists and nested
string-keyed maps.  This covers everything queue.py itself puts into
metadata (the `collected_messages` snapshots). -/
inductive MetaVal where
  | s (v : String)
  | list (vs : List MetaVal)
  | dict (kvs : List (String × MetaVal))

/-- First-match lookup in an association list, Python `d.get(k)` / `d[k]`. -/
def assocGet {α : Type} : List (String × α) → String → Option α
  | [], _ => none
  | (k1, v) :: rest, k => if k1 = k then some v else assocGet rest k

/-- Python `{**d, k: v}`: replace the value in place when the key exists,
append the pair at the end otherwise. -/
def assocSet {α : Type} (l : List (String × α)) (k : String) (v : α) :
    List (String × α) :=
  if l.any (fun p => decide (p.1 = k)) then
    l.map (fun p => if p.1 = k then (k, v) else p)
  else l ++ [(k, v)]

/-- Python `d.setdefault(k, []).append(x)`: append `x` to the list stored at
`k`, creating the entry at the end of the dict when it is absent. -/
def assocAppendItem {α : Type} (l : List (String × List α)) (k : String)
    (x : α) : List (String × List α) :=
  if l.any (fun p => decide (p.1 = k)) then
    l.map (fun p => if p.1 = k then (p.1, p.2 ++ [x]) else p)
  else l ++ [(k, [x])]

/-- Python `d.pop(k, dflt)`'s effect on the dict: drop the entry for `k`.
Keys are unique in a Python dict, so filtering every occurrence equals
removing the one entry. -/
def assocRemove {α : Type} (l : List (String × α)) (k : String) :
    List (String × α) :=
  l.filter (fun p => decide (p.1 ≠ k))

/-- Modelled from the spec: the inbound envelope record of
nanobot/bus/events.py (the file is absent from src/); spec section 3 lists
the attributes `channel`, `sender_id`, `chat_id`, `content`, `media`,
`metadata`, `timestamp`.  The timestamp is carried as its ISO string. -/
structure InboundMessage where
  channel : String
  sender_id : String
  chat_id : String
  content : String
  media : List String
  metadata : List (String × MetaVal)
  timestamp : String

/-- Modelled from the spec: `session_key` is derived as `channel:chat_id`
(spec section 3; corroborated by src/nanobot/channels/telegram.py line 311,
which builds `f"{self.name}:{chat_id}"`). -/
def sessionKey (m : InboundMessage) : String :=
  m.channel ++ ":" ++ m.chat_id

/-- Modelled from the spec: the outbound envelope record of
nanobot/bus/events.py (absent from src/); spec section 3 lists `channel`,
`chat_id`, `content`, `media`, `metadata`, `reaction`, `reply_to`. -/
structure OutboundMessage where
  channel : String
  chat_id : String
  content : String
  media : List String
  metadata : List (String × MetaVal)
  reaction : Option String
  reply_to : Option String

/-- The default-constructed inbound message, used only as the unreachable
default of `List.getLastD` (the code indexes `messages[-1]` only on
non-empty lists). -/
def defaultMsg : InboundMessage :=
  { channel := "", sender_id := "", chat_id := "", content := "",
    media := [], metadata := [], timestamp := "" }

/-- State of MessageBus touched by the inbound-side operations:
`self.inbound` (FIFO queue, head first), `self._active_inbound_session`,
and `self._inbound_collect_buffer`. -/
structure BusState where
  inbound : List InboundMessage
  active : Option String
  buffer : List (String × List InboundMessage)

/-- MessageBus.__init__: empty queue, no active session, empty buffer. -/
def initBus : BusState := { inbound := [], active := none, buffer := [] }

/-- Python truthiness test `if self._active_inbound_session and
msg.session_key == self._active_inbound_session`: `None` and the empty
string are falsy. -/
def activeTruthyEq (active : Option String) (k : String) : Bool :=
  match active with
  | none => false
  | some a => if a = "" then false else if k = a then true else false

/-- MessageBus.publish_inbound (queue.py lines 30-42): under the collect
lock, if the active session is truthy and equals the message's session key,
append the message to that session's buffer and return; otherwise enqueue
it onto the inbound FIFO. -/
def publish_inbound (s : BusState) (m : InboundMessage) : BusState :=
  if activeTruthyEq s.active (sessionKey m) then
    { s with buffer := assocAppendItem s.buffer (sessionKey m) m }
  else
    { s with inbound := s.inbound ++ [m] }

/-- MessageBus.consume_inbound (queue.py lines 44-49): pop the head of the
inbound queue (suspending while empty, modelled as `none`), then under the
lock record its session key as the active session, and return it. -/
def consume_inbound (s : BusState) : Option (InboundMessage × BusState) :=
  match s.inbound with
  | [] => none
  | m :: rest =>
      some (m, { s with inbound := rest, active := some (sessionKey m) })

/-- Snapshot dict built for each message in the `collected` list of
MessageBus._merge_buffered_messages (queue.py lines 72-83). -/
def snapshot (m : InboundMessage) : MetaVal :=
  .dict [("sender_id", .s m.sender_id),
         ("content", .s m.content),
         ("media", .list (m.media.map MetaVal.s)),
         ("timestamp", .s m.timestamp),
         ("metadata", .dict m.metadata)]

/-- The multi-message branch of MessageBus._merge_buffered_messages
(queue.py lines 66-93): join the `[sender] content` parts with blank lines,
concatenate the media lists, extend the last message's metadata with the
`collected_messages` snapshots, and take routing fields from the last
message. -/
def mergeMulti (msgs : List InboundMessage) : InboundMessage :=
  { channel := (msgs.getLastD defaultMsg).channel
    sender_id := (msgs.getLastD defaultMsg).sender_id
    chat_id := (msgs.getLastD defaultMsg).chat_id
    content := String.intercalate "\n\n"
      (msgs.map (fun m => "[" ++ m.sender_id ++ "] " ++ m.content))
    media := (msgs.map (fun m => m.media)).flatten
    metadata := assocSet (msgs.getLastD defaultMsg).metadata
      "collected_messages" (.list (msgs.map snapshot))
    timestamp := (msgs.getLastD defaultMsg).timestamp }

/-- MessageBus._merge_buffered_messages (queue.py lines 61-93).  A single
message is returned unchanged; on an empty list the Python code would raise
IndexError at `messages[-1]`, modelled as `none`. -/
def merge_buffered_messages : List InboundMessage → Option InboundMessage
  | [] => none
  | [m] => some m
  | a :: b :: rest => some (mergeMulti (a :: b :: rest))

/-- MessageBus.complete_inbound_turn (queue.py lines 51-59): under the
lock, pop the session's buffer (default empty); when non-empty, enqueue the
merge of the buffered messages; finally clear the active session. -/
def complete_inbound_turn (s : BusState) (m : InboundMessage) : BusState :=
  let buffered := (assocGet s.buffer (sessionKey m)).getD []
  let buf1 := assocRemove s.buffer (sessionKey m)
  match merge_buffered_messages buffered with
  | some merged =>
      { s with buffer := buf1, inbound := s.inbound ++ [merged],
               active := none }
  | none => { s with buffer := buf1, active := none }

/-- Folding a sequence of publish_inbound calls over a state. -/
def publishMany (s : BusState) (ms : List InboundMessage) : BusState :=
  ms.foldl publish_inbound s

/-- An outbound delivery callback registered via subscribe_outbound,
identified by `id`; `run msg = false` models the callback raising an
exception on that envelope. -/
structure Callback where
  id : Nat
  run : OutboundMessage → Bool

/-- MessageBus.subscribe_outbound (queue.py lines 103-111): create the
channel's list when absent, then append the callback. -/
def subscribe_outbound (subs : List (String × List Callback)) (ch : String)
    (cb : Callback) : List (String × List Callback) :=
  assocAppendItem subs ch cb

/-- `self._outbound_subscribers.get(msg.channel, [])`. -/
def subsFor (subs : List (String × List Callback)) (ch : String) :
    List Callback :=
  (assocGet subs ch).getD []

/-- One iteration of MessageBus.dispatch_outbound's body for a dequeued
envelope (queue.py lines 119-127): invoke every callback registered for
the envelope's channel in order; an exception from a callback is caught
and logged, so the loop over callbacks always runs to the end.  The result
is the invocation trace: one (callback id, outcome) pair per invocation. -/
def dispatchOne (subs : List (String × List Callback))
    (msg : OutboundMessage) : List (Nat × Bool) :=
  (subsFor subs msg.channel).map (fun cb => (cb.id, cb.run msg))

/-- The dispatch_outbound loop (queue.py lines 113-129) applied to the
envelopes queued in the outbound mailbox, front first: each envelope is
dequeued once, dispatched once, and never re-enqueued (the loop body has
no retry path; a TimeoutError wait merely re-checks the running flag). -/
def dispatchAll (subs : List (String × List Callback))
    (msgs : List OutboundMessage) : List (List (Nat × Bool)) :=
  msgs.map (dispatchOne subs)

/-- Extract the value stored at key `k` of a dict-shaped metadata value. -/
def snapField (v : MetaVal) (k : String) : Option MetaVal :=
  match v with
  | .dict kvs => assocGet kvs k
  | _ => none

/-- Decode a list of string-valued MetaVal back to the list of strings. -/
def unstrList : List MetaVal → Option (List String)
  | [] => some []
  | .s x :: rest => (unstrList rest).map (fun xs => x :: xs)
  | _ => none

/-- Recover the sender id from a collected-message snapshot. -/
def snapSenderId (v : MetaVal) : Option String :=
  match snapField v "sender_id" with
  | some (.s x) => some x
  | _ => none

/-- Recover the content from a collected-message snapshot. -/
def snapContent (v : MetaVal) : Option String :=
  match snapField v "content" with
  | some (.s x) => some x
  | _ => none

/-- Recover the media list from a collected-message snapshot. -/
def snapMedia (v : MetaVal) : Option (List String) :=
  match snapField v "media" with
  | some (.list vs) => unstrList vs
  | _ => none

/-- Recover the timestamp from a collected-message snapshot. -/
def snapTimestamp (v : MetaVal) : Option String :=
  match snapField v "timestamp" with
  | some (.s x) => some x
  | _ => none

/-- Example messages used by the concrete witnesses below. -/
def exA : InboundMessage :=
  { channel := "t", sender_id := "u1", chat_id := "1", content := "one",
    media := ["a.png"], metadata := [("k", .s "v")],
    timestamp := "2026-01-01T00:00:00" }

def exB : InboundMessage :=
  { channel := "t", sender_id := "u2", chat_id := "1", content := "two",
    media := ["b.png"], metadata := [("r", .s "w")],
    timestamp := "2026-01-01T00:00:05" }

def exC : InboundMessage :=
  { channel := "t", sender_id := "u3", chat_id := "2", content := "three",
    media := [], metadata := [], timestamp := "2026-01-01T00:00:09" }

def exSubs : List (String × List Callback) :=
  [("x", [⟨1, fun _ => true⟩, ⟨2, fun _ => false⟩])]

def exOutY : OutboundMessage :=
  { channel := "y", chat_id := "1", content := "hello", media := [],
    metadata := [], reaction := none, reply_to := none }

theorem sessionKey_ne_empty (m : InboundMessage) : sessionKey m ≠ "" := by
  intro h
  have h2 := congrArg String.length h
  simp [sessionKey, String.length_append] at h2
  exact absurd h2.1.2 (by decide)

theorem assocGet_mapSet {α : Type} (l : List (String × α)) (k : String)
    (v : α) (h : l.any (fun p => decide (p.1 = k)) = true) :
    assocGet (l.map (fun p => if p.1 = k then (k, v) else p)) k = some v := by
  induction l with
  | nil => simp at h
  | cons p rest ih =>
    simp only [List.map_cons]
    by_cases hp : p.1 = k
    · rw [if_pos hp]
      simp [assocGet]
    · rw [if_neg hp]
      have h2 : (rest.any fun p => decide (p.1 = k)) = true := by
        simp only [List.any_cons, Bool.or_eq_true] at h
        rcases h with h3 | h3
        · exact absurd (of_decide_eq_true h3) hp
        · exact h3
      simp only [assocGet]
      rw [if_neg hp]
      exact ih h2

theorem assocGet_append_self {α : Type} (l : List (String × α)) (k : String)
    (v : α) (h : l.any (fun p => decide (p.1 = k)) = false) :
    assocGet (l ++ [(k, v)]) k = some v := by
  induction l with
  | nil => simp [assocGet]
  | cons p rest ih =>
    have hp : ¬p.1 = k := by
      intro hk
      simp [List.any_cons, hk] at h
    have h2 : (rest.any fun p => decide (p.1 = k)) = false := by
      simp only [List.any_cons, Bool.or_eq_false_iff] at h
      exact h.2
    simp only [List.cons_append, assocGet]
    rw [if_neg hp]
    exact ih h2

theorem assocGet_assocSet_self {α : Type} (l : List (String × α))
    (k : String) (v : α) : assocGet (assocSet l k v) k = some v := by
  unfold assocSet
  split
  · exact assocGet_mapSet l k v (by assumption)
  · exact assocGet_append_self l k v (by
      rename_i h
      exact Bool.eq_false_iff.mpr h)

theorem assocRemove_eq_self {α : Type} (l : List (String × α)) (k : String)
    (h : assocGet l k = none) : assocRemove l k = l := by
  induction l with
  | nil => rfl
  | cons p rest ih =>
    by_cases hp : p.1 = k
    · simp [assocGet, hp] at h
    · simp only [assocGet, hp, if_false] at h
      simp [assocRemove, List.filter_cons, hp] at ih ⊢
      exact ih h

/-- C6: the merge algorithm applied to a one-element sequence returns the
single message itself, unchanged and unwrapped. -/
theorem C6_merge_singleton_identity (m : InboundMessage) :
    merge_buffered_messages [m] = some m := rfl

theorem merge_buffered_cons_cons (a b : InboundMessage)
    (t : List InboundMessage) :
    merge_buffered_messages (a :: b :: t) = some (mergeMulti (a :: b :: t)) :=
  rfl

/-- C5: merging at least two messages (written ms ++ [m] with ms non-empty)
yields content equal to the blank-line join of the "[sender_id] content"
parts in original order, media equal to the concatenation of the media
lists in original order, and channel, sender_id, chat_id and timestamp
taken from the last message. -/
theorem C5_merge_fields (ms : List InboundMessage) (m : InboundMessage)
    (h : ms ≠ []) :
    ∃ r, merge_buffered_messages (ms ++ [m]) = some r ∧
      r.content = String.intercalate "\n\n"
        ((ms ++ [m]).map (fun x => "[" ++ x.sender_id ++ "] " ++ x.content)) ∧
      r.media = ((ms ++ [m]).map (fun x => x.media)).flatten ∧
      r.channel = m.channel ∧ r.sender_id = m.sender_id ∧
      r.chat_id = m.chat_id ∧ r.timestamp = m.timestamp := by
  obtain ⟨a, t, rfl⟩ := List.exists_cons_of_ne_nil h
  refine ⟨mergeMulti ((a :: t) ++ [m]), ?_, ?_, ?_, ?_, ?_, ?_, ?_⟩
  · cases t with
    | nil => rfl
    | cons b t2 => rfl
  all_goals (unfold mergeMulti; first | rfl | rw [List.getLastD_concat])

/-- C5 witness at the concrete input ms = [exA], m = exB. -/
theorem C5_merge_fields_witness :
    [exA] ≠ [] ∧
    (∃ r, merge_buffered_messages ([exA] ++ [exB]) = some r ∧
      r.content = String.intercalate "\n\n"
        (([exA] ++ [exB]).map
          (fun x => "[" ++ x.sender_id ++ "] " ++ x.content)) ∧
      r.media = (([exA] ++ [exB]).map (fun x => x.media)).flatten ∧
      r.channel = exB.channel ∧ r.sender_id = exB.sender_id ∧
      r.chat_id = exB.chat_id ∧ r.timestamp = exB.timestamp) :=
  ⟨List.cons_ne_nil exA [], C5_merge_fields [exA] exB (List.cons_ne_nil exA [])⟩

/-- C3: publish_inbound appends the message to its session's pending buffer
(and does not touch the mailbox) exactly when the message's session key is
the active session, and otherwise appends it to the mailbox tail; in both
cases the message is retained, and the whole step is one atomic transition
of the state (the code performs the check and the append under one lock). -/
theorem C3_publish_inbound_routes (s : BusState) (m : InboundMessage) :
    publish_inbound s m =
      if s.active = some (sessionKey m) then
        { s with buffer := assocAppendItem s.buffer (sessionKey m) m }
      else
        { s with inbound := s.inbound ++ [m] } := by
  unfold publish_inbound activeTruthyEq
  cases ha : s.active with
  | none => simp
  | some a =>
    by_cases h0 : a = ""
    · subst h0
      simp [Ne.symm (sessionKey_ne_empty m)]
    · by_cases h1 : sessionKey m = a
      · subst h1
        simp [h0]
      · simp only [h0, if_false, h1]
        rw [if_neg (fun h : some a = some (sessionKey m) =>
          h1 (Option.some.inj h).symm)]
        simp

/-- C9: for every dequeued outbound envelope, the dispatcher invokes each
callback subscribed to the envelope's channel exactly once, in
registration order, and the sequence of invoked callback ids does not
depend on which callbacks raise (isolation); the loop then continues with
the remaining envelopes, and every queued envelope produces exactly one
dispatch (no retry or redelivery). -/
theorem C9_dispatch_fanout_isolated (subs : List (String × List Callback))
    (msg : OutboundMessage) (msgs : List OutboundMessage) :
    (dispatchOne subs msg).map Prod.fst
      = (subsFor subs msg.channel).map Callback.id ∧
    dispatchAll subs (msg :: msgs)
      = dispatchOne subs msg :: dispatchAll subs msgs ∧
    (dispatchAll subs msgs).length = msgs.length := by
  refine ⟨?_, rfl, by simp [dispatchAll]⟩
  simp [dispatchOne, List.map_map]

/-- C10: an outbound envelope whose channel has no subscriber is dequeued,
produces no callback invocation and no error, is never redelivered, and
the envelopes after it are still dispatched. -/
theorem C10_unsubscribed_channel_dropped
    (subs : List (String × List Callback)) (msg : OutboundMessage)
    (msgs : List OutboundMessage) (h : assocGet subs msg.channel = none) :
    dispatchOne subs msg = [] ∧
    dispatchAll subs (msg :: msgs) = [] :: dispatchAll subs msgs ∧
    (dispatchAll subs (msg :: msgs)).length = msgs.length + 1 := by
  have h1 : dispatchOne subs msg = [] := by simp [dispatchOne, subsFor, h]
  exact ⟨h1, by simp [dispatchAll, dispatchOne, subsFor, h],
    by simp [dispatchAll]⟩

theorem assocGet_mapSet_ne {α : Type} (l : List (String × α)) (k k2 : String)
    (v : α) (h : k2 ≠ k) :
    assocGet (l.map (fun p => if p.1 = k then (k, v) else p)) k2
      = assocGet l k2 := by
  induction l with
  | nil => rfl
  | cons p rest ih =>
    simp only [List.map_cons]
    by_cases hp : p.1 = k
    · rw [if_pos hp]
      simp only [assocGet]
      rw [if_neg (fun hh : k = k2 => h hh.symm)]
      rw [if_neg (fun hh : p.1 = k2 => h (hh ▸ hp))]
      exact ih
    · rw [if_neg hp]
      simp only [assocGet]
      by_cases hp2 : p.1 = k2
      · rw [if_pos hp2, if_pos hp2]
      · rw [if_neg hp2, if_neg hp2]
        exact ih

theorem assocGet_append_ne {α : Type} (l : List (String × α)) (k k2 : String)
    (v : α) (h : k2 ≠ k) :
    assocGet (l ++ [(k, v)]) k2 = assocGet l k2 := by
  induction l with
  | nil =>
    simp only [List.nil_append, assocGet]
    rw [if_neg (fun hh : k = k2 => h hh.symm)]
  | cons p rest ih =>
    simp only [List.cons_append, assocGet]
    by_cases hp2 : p.1 = k2
    · rw [if_pos hp2, if_pos hp2]
    · rw [if_neg hp2, if_neg hp2]
      exact ih

theorem assocGet_assocSet_ne {α : Type} (l : List (String × α))
    (k k2 : String) (v : α) (h : k2 ≠ k) :
    assocGet (assocSet l k v) k2 = assocGet l k2 := by
  unfold assocSet
  split
  · exact assocGet_mapSet_ne l k k2 v h
  · exact assocGet_append_ne l k k2 v h

theorem unstrList_map_s (l : List String) :
    unstrList (l.map MetaVal.s) = some l := by
  induction l with
  | nil => rfl
  | cons x xs ih => simp [unstrList, ih]

theorem snapSenderId_snapshot (m : InboundMessage) :
    snapSenderId (snapshot m) = some m.sender_id := rfl

theorem snapContent_snapshot (m : InboundMessage) :
    snapContent (snapshot m) = some m.content := rfl

theorem snapTimestamp_snapshot (m : InboundMessage) :
    snapTimestamp (snapshot m) = some m.timestamp := rfl

theorem snapMedia_snapshot (m : InboundMessage) :
    snapMedia (snapshot m) = some m.media := by
  show unstrList (m.media.map MetaVal.s) = some m.media
  exact unstrList_map_s m.media

theorem merge_buffered_isSome (b : List InboundMessage) (h : b ≠ []) :
    ∃ mm, merge_buffered_messages b = some mm := by
  cases b with
  | nil => exact absurd rfl h
  | cons x t =>
    cases t with
    | nil => exact ⟨x, rfl⟩
    | cons y t2 => exact ⟨mergeMulti (x :: y :: t2), rfl⟩

/-- C7: merging at least two messages (written ms ++ [m] with ms non-empty)
stores under the metadata key collected_messages one snapshot per input
message in original order, from which every input message's sender_id,
content, media and timestamp are recovered exactly; every other metadata
key is looked up in the last message's metadata map. -/
theorem C7_collected_roundtrip (ms : List InboundMessage)
    (m : InboundMessage) (h : ms ≠ []) :
    ∃ r, merge_buffered_messages (ms ++ [m]) = some r ∧
      assocGet r.metadata "collected_messages"
        = some (.list ((ms ++ [m]).map snapshot)) ∧
      (∀ k2, k2 ≠ "collected_messages" →
        assocGet r.metadata k2 = assocGet m.metadata k2) ∧
      ((ms ++ [m]).map snapshot).map snapSenderId
        = (ms ++ [m]).map (fun x => some x.sender_id) ∧
      ((ms ++ [m]).map snapshot).map snapContent
        = (ms ++ [m]).map (fun x => some x.content) ∧
      ((ms ++ [m]).map snapshot).map snapMedia
        = (ms ++ [m]).map (fun x => some x.media) ∧
      ((ms ++ [m]).map snapshot).map snapTimestamp
        = (ms ++ [m]).map (fun x => some x.timestamp) := by
  obtain ⟨a, t, rfl⟩ := List.exists_cons_of_ne_nil h
  refine ⟨mergeMulti ((a :: t) ++ [m]), ?_, ?_, ?_, ?_, ?_, ?_, ?_⟩
  · cases t with
    | nil => rfl
    | cons b t2 => rfl
  · unfold mergeMulti
    exact assocGet_assocSet_self _ _ _
  · intro k2 hk2
    unfold mergeMulti
    rw [List.getLastD_concat]
    exact assocGet_assocSet_ne _ _ _ _ hk2
  · simp [List.map_map, Function.comp_def, snapSenderId_snapshot]
  · simp [List.map_map, Function.comp_def, snapContent_snapshot]
  · simp [List.map_map, Function.comp_def, snapMedia_snapshot]
  · simp [List.map_map, Function.comp_def, snapTimestamp_snapshot]

/-- C7 witness at the concrete input ms = [exA], m = exB. -/
theorem C7_collected_roundtrip_witness :
    [exA] ≠ [] ∧
    (∃ r, merge_buffered_messages ([exA] ++ [exB]) = some r ∧
      assocGet r.metadata "collected_messages"
        = some (.list (([exA] ++ [exB]).map snapshot)) ∧
      (∀ k2, k2 ≠ "collected_messages" →
        assocGet r.metadata k2 = assocGet exB.metadata k2) ∧
      (([exA] ++ [exB]).map snapshot).map snapSenderId
        = ([exA] ++ [exB]).map (fun x => some x.sender_id) ∧
      (([exA] ++ [exB]).map snapshot).map snapContent
        = ([exA] ++ [exB]).map (fun x => some x.content) ∧
      (([exA] ++ [exB]).map snapshot).map snapMedia
        = ([exA] ++ [exB]).map (fun x => some x.media) ∧
      (([exA] ++ [exB]).map snapshot).map snapTimestamp
        = ([exA] ++ [exB]).map (fun x => some x.timestamp)) :=
  ⟨List.cons_ne_nil exA [],
   C7_collected_roundtrip [exA] exB (List.cons_ne_nil exA [])⟩

/-- C10 witness: a subscriber table for channel "x" only, and an envelope
for channel "y". -/
theorem C10_unsubscribed_channel_dropped_witness :
    assocGet exSubs exOutY.channel = none ∧
    (dispatchOne exSubs exOutY = [] ∧
     dispatchAll exSubs (exOutY :: ([] : List OutboundMessage))
       = [] :: dispatchAll exSubs ([] : List OutboundMessage) ∧
     (dispatchAll exSubs (exOutY :: ([] : List OutboundMessage))).length
       = ([] : List OutboundMessage).length + 1) :=
  ⟨rfl, C10_unsubscribed_channel_dropped exSubs exOutY [] rfl⟩

/-- C4: complete_inbound_turn removes the session's pending-buffer entry,
enqueues the merge of the buffered messages at the mailbox tail exactly
when that buffer was non-empty, and clears active_session in every case;
consequently publishing m1 then m2 for a session while it is active and
then completing the turn makes the next consume_inbound return
merge([m1, m2]). -/
theorem C4_complete_turn_flushes (s : BusState) (m m1 m2 : InboundMessage)
    (h1 : sessionKey m1 = sessionKey m)
    (h2 : sessionKey m2 = sessionKey m) :
    (complete_inbound_turn s m).active = none ∧
    (complete_inbound_turn s m).buffer
      = assocRemove s.buffer (sessionKey m) ∧
    ((assocGet s.buffer (sessionKey m)).getD [] = [] →
      (complete_inbound_turn s m).inbound = s.inbound) ∧
    (∀ b, assocGet s.buffer (sessionKey m) = some b → b ≠ [] →
      ∃ mm, merge_buffered_messages b = some mm ∧
        (complete_inbound_turn s m).inbound = s.inbound ++ [mm]) ∧
    (∃ u, consume_inbound
        (complete_inbound_turn
          (publish_inbound
            (publish_inbound
              { inbound := [], active := some (sessionKey m), buffer := [] }
              m1) m2) m)
        = some (mergeMulti [m1, m2], u)) := by
  have hceq : complete_inbound_turn s m =
      match merge_buffered_messages
          ((assocGet s.buffer (sessionKey m)).getD []) with
      | some merged =>
          { inbound := s.inbound ++ [merged], active := none,
            buffer := assocRemove s.buffer (sessionKey m) }
      | none =>
          { inbound := s.inbound, active := none,
            buffer := assocRemove s.buffer (sessionKey m) } := rfl
  refine ⟨?_, ?_, ?_, ?_, ?_⟩
  · rw [hceq]
    cases merge_buffered_messages
      ((assocGet s.buffer (sessionKey m)).getD []) <;> rfl
  · rw [hceq]
    cases merge_buffered_messages
      ((assocGet s.buffer (sessionKey m)).getD []) <;> rfl
  · intro hbe
    rw [hceq, hbe]
    rfl
  · intro b hb hne
    obtain ⟨mm, hmm⟩ := merge_buffered_isSome b hne
    refine ⟨mm, hmm, ?_⟩
    rw [hceq, hb]
    simp only [Option.getD_some]
    rw [hmm]
  · refine ⟨{ inbound := [],
              active := some (sessionKey (mergeMulti [m1, m2])),
              buffer := [] }, ?_⟩
    simp [publish_inbound, activeTruthyEq, h1, h2, sessionKey_ne_empty m,
      assocAppendItem, complete_inbound_turn, assocGet, assocRemove,
      merge_buffered_messages, consume_inbound]

/-- C4 witness: the initial bus state, session "t:1" of exA, publishing
exA then exB during the active turn. -/
theorem C4_complete_turn_flushes_witness :
    sessionKey exA = sessionKey exA ∧ sessionKey exB = sessionKey exA ∧
    ((complete_inbound_turn initBus exA).active = none ∧
     (complete_inbound_turn initBus exA).buffer
       = assocRemove initBus.buffer (sessionKey exA) ∧
     ((assocGet initBus.buffer (sessionKey exA)).getD [] = [] →
       (complete_inbound_turn initBus exA).inbound = initBus.inbound) ∧
     (∀ b, assocGet initBus.buffer (sessionKey exA) = some b → b ≠ [] →
       ∃ mm, merge_buffered_messages b = some mm ∧
         (complete_inbound_turn initBus exA).inbound
           = initBus.inbound ++ [mm]) ∧
     (∃ u, consume_inbound
         (complete_inbound_turn
           (publish_inbound
             (publish_inbound
               { inbound := [], active := some (sessionKey exA), buffer := [] }
               exA) exB) exA)
         = some (mergeMulti [exA, exB], u))) :=
  ⟨rfl, rfl, C4_complete_turn_flushes initBus exA exA exB rfl rfl⟩

/-- C8 as stated is false at a concrete input: with session "t:1" active
and no pending-buffer entry for exC's session "t:2",
complete_inbound_turn still clears active_session, so the bus state does
not stay unchanged. -/
theorem C8_counterexample :
    assocGet ({ inbound := [], active := some "t:1", buffer := [] } :
        BusState).buffer (sessionKey exC) = none ∧
    ({ inbound := [], active := some "t:1", buffer := [] } :
        BusState).active ≠ some (sessionKey exC) ∧
    (complete_inbound_turn
        { inbound := [], active := some "t:1", buffer := [] } exC).active
      ≠ ({ inbound := [], active := some "t:1", buffer := [] } :
        BusState).active := by
  refine ⟨rfl, by decide, by decide⟩

/-- C8 amended: when the session of msg has no pending-buffer entry,
complete_inbound_turn raises no error (the buffer pop yields nothing) and
leaves the inbound mailbox and the whole buffer table unchanged, but it
unconditionally clears active_session; the entire bus state is unchanged
exactly when no session was active. -/
theorem C8_amended_no_buffer (s : BusState) (m : InboundMessage)
    (hb : assocGet s.buffer (sessionKey m) = none) :
    (complete_inbound_turn s m).inbound = s.inbound ∧
    (complete_inbound_turn s m).buffer = s.buffer ∧
    (complete_inbound_turn s m).active = none ∧
    (s.active = none → complete_inbound_turn s m = s) := by
  have hc : complete_inbound_turn s m = { s with active := none } := by
    simp [complete_inbound_turn, hb, merge_buffered_messages,
      assocRemove_eq_self s.buffer (sessionKey m) hb]
  refine ⟨by rw [hc], by rw [hc], by rw [hc], ?_⟩
  intro ha
  rw [hc]
  cases s
  simp_all

/-- C8 amended witness: the initial bus state and the envelope exC. -/
theorem C8_amended_no_buffer_witness :
    assocGet initBus.buffer (sessionKey exC) = none ∧
    ((complete_inbound_turn initBus exC).inbound = initBus.inbound ∧
     (complete_inbound_turn initBus exC).buffer = initBus.buffer ∧
     (complete_inbound_turn initBus exC).active = none ∧
     (initBus.active = none → complete_inbound_turn initBus exC = initBus)) :=
  ⟨rfl, C8_amended_no_buffer initBus exC rfl⟩

/-- C1 as stated is false at a concrete input: with two same-session
envelopes queued, consume_inbound returns the head envelope itself and
leaves the second one in the mailbox; nothing is drained and the merge of
the two is not returned. -/
theorem C1_counterexample :
    sessionKey exA = sessionKey exB ∧
    consume_inbound { inbound := [exA, exB], active := none, buffer := [] }
      = some (exA, { inbound := [exB],
                     active := some (sessionKey exA),
                     buffer := [] }) ∧
    (consume_inbound
        { inbound := [exA, exB], active := none, buffer := [] }).map
        (fun p => p.1.content)
      ≠ (merge_buffered_messages [exA, exB]).map (fun r => r.content) := by
  refine ⟨rfl, rfl, by decide⟩

/-- C1 amended: consume_inbound pops only the head envelope, atomically
records its session key as the active session, and returns it unchanged;
it performs no non-blocking drain, no re-enqueueing, and no merging of
mailbox envelopes (merging happens only through the pending buffer at
complete_inbound_turn). -/
theorem C1_amended_consume_pops_head (s : BusState) (m : InboundMessage)
    (rest : List InboundMessage) (h : s.inbound = m :: rest) :
    consume_inbound s
      = some (m, { inbound := rest,
                   active := some (sessionKey m),
                   buffer := s.buffer }) := by
  unfold consume_inbound
  rw [h]

/-- C1 amended witness at the state whose mailbox holds exA then exB. -/
theorem C1_amended_consume_pops_head_witness :
    ({ inbound := [exA, exB], active := none, buffer := [] } :
        BusState).inbound = exA :: [exB] ∧
    consume_inbound { inbound := [exA, exB], active := none, buffer := [] }
      = some (exA, { inbound := [exB],
                     active := some (sessionKey exA),
                     buffer := [] }) :=
  ⟨rfl, C1_amended_consume_pops_head
    { inbound := [exA, exB], active := none, buffer := [] } exA [exB] rfl⟩

/-- C2 as stated is false at a concrete input: two same-session envelopes
enqueued before the session becomes active are returned by two
consecutive consume_inbound calls with no intervening
complete_inbound_turn, so the second consume returns an envelope whose
session key equals the currently active session. -/
theorem C2_counterexample :
    ∃ u v,
      consume_inbound (publish_inbound (publish_inbound initBus exA) exB)
        = some (exA, u) ∧
      u.active = some (sessionKey exA) ∧
      consume_inbound u = some (exB, v) ∧
      sessionKey exB = sessionKey exA := by
  exact ⟨_, _, rfl, rfl, rfl, rfl⟩

theorem publish_keeps_active_absent (s : BusState) (k : String)
    (hk : k ≠ "") (ha : s.active = some k)
    (hn : ∀ x ∈ s.inbound, sessionKey x ≠ k) (m : InboundMessage) :
    (publish_inbound s m).active = some k ∧
    ∀ x ∈ (publish_inbound s m).inbound, sessionKey x ≠ k := by
  unfold publish_inbound
  by_cases hc : activeTruthyEq s.active (sessionKey m) = true
  · rw [if_pos hc]
    exact ⟨ha, hn⟩
  · rw [if_neg hc]
    have hm : sessionKey m ≠ k := by
      intro hkey
      apply hc
      rw [ha]
      show (if k = "" then false
            else if sessionKey m = k then true else false) = true
      rw [if_neg hk, if_pos hkey]
    refine ⟨ha, ?_⟩
    intro x hx
    rcases List.mem_append.mp hx with hx2 | hx2
    · exact hn x hx2
    · rw [List.mem_singleton.mp hx2]
      exact hm

/-- C2 amended: active_session is one optional value, so at most one
session is active at any instant; and while a session is active, if the
mailbox holds no envelope of that session, then after any sequence of
publish_inbound calls (same-session publishes are buffered, not
enqueued), a consume_inbound still cannot return an envelope of the
active session.  (An envelope of the same session that was already in the
mailbox before the session became active can, however, be returned by a
second consume, which is the part of the original claim that fails.) -/
theorem C2_amended_active_shielded (s : BusState) (k : String)
    (hk : k ≠ "") (ha : s.active = some k)
    (hn : ∀ x ∈ s.inbound, sessionKey x ≠ k)
    (ms : List InboundMessage) (r : InboundMessage) (u : BusState)
    (hc : consume_inbound (publishMany s ms) = some (r, u)) :
    sessionKey r ≠ k := by
  revert ha hn hc
  induction ms generalizing s with
  | nil =>
    intro ha hn hc
    simp only [publishMany, List.foldl_nil] at hc
    unfold consume_inbound at hc
    cases hi : s.inbound with
    | nil =>
      rw [hi] at hc
      exact Option.noConfusion hc
    | cons x rest =>
      rw [hi] at hc
      injection hc with h12
      have hxr : x = r := congrArg Prod.fst h12
      exact hxr ▸ hn x (hi.symm ▸ List.mem_cons_self x rest)
  | cons m ms ih =>
    intro ha hn hc
    simp only [publishMany, List.foldl_cons] at hc
    have h2 := publish_keeps_active_absent s k hk ha hn m
    exact ih (publish_inbound s m) h2.1 h2.2 hc

/-- C2 amended witness: session "t:1" is active with an empty mailbox;
publishing exC (session "t:2") and consuming returns exC, whose session
key differs from the active one. -/
theorem C2_amended_active_shielded_witness : sessionKey exC ≠ "t:1" :=
  C2_amended_active_shielded
    { inbound := [], active := some "t:1", buffer := [] } "t:1"
    (by decide) rfl
    (by intro x hx; exact absurd hx (List.not_mem_nil x))
    [exC] exC
    { inbound := [], active := some (sessionKey exC), buffer := [] }
    rfl

end Nanobot
